import Mathlib

/-!
# Verification of the kicktipp-bot row-processing and tip-calculation engine

A shallow embedding, in Lean 4, of the core logic of the `kicktipp-bot`
repository (Python), together with proofs and refutations of the natural
language specification's claims about it.

Embedding conventions:
* Python `float` values (betting quotes, coefficients) are modelled by their
  exact rational value, represented by the unnormalized fraction type `Frac`
  (numerator `ℤ`, denominator `ℤ`, positive by construction in every use).
  All concrete inputs used in counterexamples are exactly representable in
  IEEE-754 binary64 and every intermediate product at those inputs is exact,
  so each concrete counterexample transfers verbatim to the Python code.
  `Frac` is used instead of Lean's `ℚ` so that every definition evaluates
  inside the kernel (`decide`); compatibility lemmas relate the `Frac`
  operations to the corresponding operations on `ℚ`.
* Python's builtin `round` (round-half-to-even) is modelled by `Frac.pyRound`,
  Python's `abs` by `Frac.babs`, Python's two-argument `max` by `intMax`.
* `datetime` values are modelled as `Int` (a minute count in the fixed
  reference time zone, Europe/Berlin); `timedelta` likewise as `Int`.
* Python strings and their operations (`strip`, `split`, `replace`, `in`,
  `float(...)`, `str(...)`, `strptime`) are modelled by structurally
  recursive functions on `String` / `List Char`.
* The live DOM consumed through Selenium is modelled as an explicit, pure
  document state (a list of `RowData` plus a few environment flags), and the
  stateful walk over it as explicit state passing.
* `random.randint(0, 1)` is modelled as an injected `Bool` per row.
-/

namespace KicktippBot

/-! ## Exact fraction arithmetic (the model of Python floats) -/

/-- An unnormalized fraction: the exact rational value `num / den` of a
Python float. Every fraction built by this development has `0 < den`. -/
structure Frac where
  num : ℤ
  den : ℤ
deriving DecidableEq, Repr

namespace Frac

/-- The rational value of a fraction. -/
def val (f : Frac) : ℚ := (f.num : ℚ) / (f.den : ℚ)

/-- Subtraction (`a - b`). -/
def sub (a b : Frac) : Frac := ⟨a.num * b.den - b.num * a.den, a.den * b.den⟩

/-- Negation (`-a`). -/
def neg (a : Frac) : Frac := ⟨-a.num, a.den⟩

/-- Multiplication (`a * b`). -/
def mul (a b : Frac) : Frac := ⟨a.num * b.num, a.den * b.den⟩

/-- Strict comparison (`a < b`); faithful whenever both denominators are
positive. -/
def blt (a b : Frac) : Bool := a.num * b.den < b.num * a.den

/-- Python's `abs`; faithful whenever the denominator is positive. -/
def babs (a : Frac) : Frac := if a.num < 0 then ⟨-a.num, a.den⟩ else a

/-- Python 3's builtin `round` on the exact value of a float: round to the
nearest integer, ties to the even integer. (`fl` is the floor; the
fractional part `rem/den` is compared against `1/2`.) Faithful whenever the
denominator is positive. -/
def pyRound (f : Frac) : ℤ :=
  let fl := Int.fdiv f.num f.den
  let rem := f.num - fl * f.den
  if 2 * rem < f.den then fl
  else if f.den < 2 * rem then fl + 1
  else if 2 ∣ fl then fl else fl + 1

/-- Round-half-away-from-zero, the rounding mode the spec ascribes to the
tip calculator (spec §4.4: "`round` uses standard round-half-away-from-zero
on a non-negative magnitude"): `⌊q + 1/2⌋` for `q ≥ 0`, mirrored for `q < 0`. -/
def roundHalfAwayFromZero (f : Frac) : ℤ :=
  if 0 ≤ f.num then Int.fdiv (2 * f.num + f.den) (2 * f.den)
  else -(Int.fdiv (2 * (-f.num) + f.den) (2 * f.den))

end Frac

/-- Python's two-argument `max` on integers. -/
def intMax (a b : ℤ) : ℤ := if a < b then b else a

/-! ### Compatibility of `Frac` operations with `ℚ` -/

theorem Frac.val_sub (a b : Frac) (ha : a.den ≠ 0) (hb : b.den ≠ 0) :
    (a.sub b).val = a.val - b.val := by
  unfold Frac.val Frac.sub
  have ha' : (a.den : ℚ) ≠ 0 := Int.cast_ne_zero.mpr ha
  have hb' : (b.den : ℚ) ≠ 0 := Int.cast_ne_zero.mpr hb
  push_cast
  field_simp
  ring

theorem Frac.val_neg (a : Frac) : a.neg.val = -a.val := by
  unfold Frac.val Frac.neg
  push_cast
  ring_nf

theorem Frac.val_mul (a b : Frac) : (a.mul b).val = a.val * b.val := by
  unfold Frac.val Frac.mul
  push_cast
  ring_nf

theorem Frac.blt_iff_val (a b : Frac) (ha : 0 < a.den) (hb : 0 < b.den) :
    a.blt b = true ↔ a.val < b.val := by
  unfold Frac.blt Frac.val
  have ha' : (0 : ℚ) < a.den := by exact_mod_cast ha
  have hb' : (0 : ℚ) < b.den := by exact_mod_cast hb
  rw [div_lt_div_iff₀ ha' hb', decide_eq_true_eq]
  constructor
  · intro h
    exact_mod_cast h
  · intro h
    exact_mod_cast h

theorem Frac.val_babs (a : Frac) (ha : 0 < a.den) : a.babs.val = |a.val| := by
  unfold Frac.babs
  have ha' : (0 : ℚ) < (a.den : ℚ) := by exact_mod_cast ha
  split
  · rename_i h
    have hv : a.val < 0 := div_neg_of_neg_of_pos (by exact_mod_cast h) ha'
    rw [abs_of_neg hv]
    unfold Frac.val
    push_cast
    ring
  · rename_i h
    have hv : 0 ≤ a.val :=
      div_nonneg (by exact_mod_cast (by omega : (0 : ℤ) ≤ a.num)) (le_of_lt ha')
    rw [abs_of_nonneg hv]

/-- `Frac.pyRound` computes floor correctly: `Int.fdiv` on numerator and a
positive denominator is the floor of the value. -/
theorem Frac.fdiv_eq_floor_val (f : Frac) (h : 0 < f.den) :
    Int.fdiv f.num f.den = ⌊f.val⌋ := by
  have hd := Int.toNat_of_nonneg (le_of_lt h)
  calc Int.fdiv f.num f.den
      = f.num / f.den := Int.fdiv_eq_ediv _ (le_of_lt h)
    _ = f.num / (f.den.toNat : ℤ) := by rw [hd]
    _ = ⌊(f.num : ℚ) / (f.den.toNat : ℚ)⌋ := (Rat.floor_intCast_div_natCast _ _).symm
    _ = ⌊f.val⌋ := by
        have hq : ((f.den.toNat : ℚ)) = ((f.den : ℚ)) := by exact_mod_cast hd
        rw [Frac.val, hq]

end KicktippBot

namespace KicktippBot

/-! ## `Game.calculate_tip` (src/src/kicktipp_bot/models/game.py, lines 47-88)

```python
quote_difference = home_quote - away_quote
random_goal = random.randint(0, 1)
coefficient = 0.3 if abs(quote_difference) > 7 else 0.75
if abs(quote_difference) < 0.25:
    return random_goal, random_goal
elif quote_difference < 0:
    home_goals = max(0, round(-quote_difference * coefficient)) + random_goal
    away_goals = random_goal
    return home_goals, away_goals
else:
    home_goals = random_goal
    away_goals = max(0, round(quote_difference * coefficient)) + random_goal
    return home_goals, away_goals
```
The random bit is injected as the argument `r` (`random_goal = 1` iff `r`).
-/

/-- `Game.calculate_tip` from `models/game.py`, with the drawn random bit
passed in explicitly. -/
def calculate_tip (home_quote away_quote : Frac) (r : Bool) : ℤ × ℤ :=
  let quote_difference := home_quote.sub away_quote
  let random_goal : ℤ := if r then 1 else 0
  let coefficient : Frac := if Frac.blt ⟨7, 1⟩ quote_difference.babs then ⟨3, 10⟩ else ⟨3, 4⟩
  if Frac.blt quote_difference.babs ⟨1, 4⟩ then
    (random_goal, random_goal)
  else if Frac.blt quote_difference ⟨0, 1⟩ then
    (intMax 0 ((quote_difference.neg.mul coefficient).pyRound) + random_goal, random_goal)
  else
    (random_goal, intMax 0 ((quote_difference.mul coefficient).pyRound) + random_goal)

/-- The tip formula exactly as the spec's pseudocode (§4.4) prescribes it,
with `round` read as the spec demands: round-half-away-from-zero. -/
def calculateTipSpec (homeQuote awayQuote : Frac) (r : Bool) : ℤ × ℤ :=
  let diff := homeQuote.sub awayQuote
  let rg : ℤ := if r then 1 else 0
  let coefficient : Frac := if Frac.blt ⟨7, 1⟩ diff.babs then ⟨3, 10⟩ else ⟨3, 4⟩
  if Frac.blt diff.babs ⟨1, 4⟩ then (rg, rg)
  else if Frac.blt diff ⟨0, 1⟩ then ((diff.neg.mul coefficient).roundHalfAwayFromZero + rg, rg)
  else (rg, (diff.mul coefficient).roundHalfAwayFromZero + rg)

/-- The spec's formula amended to use Python's actual rounding mode
(round-half-to-even); this is the candidate the code is proved to match. -/
def calculateTipSpecHalfEven (homeQuote awayQuote : Frac) (r : Bool) : ℤ × ℤ :=
  let diff := homeQuote.sub awayQuote
  let rg : ℤ := if r then 1 else 0
  let coefficient : Frac := if Frac.blt ⟨7, 1⟩ diff.babs then ⟨3, 10⟩ else ⟨3, 4⟩
  if Frac.blt diff.babs ⟨1, 4⟩ then (rg, rg)
  else if Frac.blt diff ⟨0, 1⟩ then ((diff.neg.mul coefficient).pyRound + rg, rg)
  else (rg, (diff.mul coefficient).pyRound + rg)

example : Frac.pyRound ⟨3, 2⟩ = 2 := by decide
example : Frac.pyRound ⟨5, 2⟩ = 2 := by decide
example : Frac.pyRound ⟨9, 2⟩ = 4 := by decide
example : Frac.pyRound ⟨-5, 2⟩ = -2 := by decide
example : Frac.pyRound ⟨600, 400⟩ = 2 := by decide
example : Frac.roundHalfAwayFromZero ⟨9, 2⟩ = 5 := by decide
example : calculate_tip ⟨7, 1⟩ ⟨1, 1⟩ false = (0, 4) := by decide
example : calculateTipSpec ⟨7, 1⟩ ⟨1, 1⟩ false = (0, 5) := by decide
example : calculate_tip ⟨15, 10⟩ ⟨6, 1⟩ false = (3, 0) := by decide
example : calculate_tip ⟨15, 10⟩ ⟨6, 1⟩ true = (4, 1) := by decide
example : calculate_tip ⟨2, 1⟩ ⟨12, 1⟩ false = (3, 0) := by decide
example : calculate_tip ⟨2, 1⟩ ⟨12, 1⟩ true = (4, 1) := by decide

/-- `Frac.pyRound` never returns a negative result on a value with
nonnegative numerator and positive denominator. -/
theorem Frac.pyRound_nonneg {f : Frac} (hn : 0 ≤ f.num) (hd : 0 < f.den) :
    0 ≤ f.pyRound := by
  unfold Frac.pyRound
  have hf : 0 ≤ Int.fdiv f.num f.den := Int.fdiv_nonneg hn (le_of_lt hd)
  dsimp only
  split
  · exact hf
  · split
    · omega
    · split
      · exact hf
      · omega

/-- `intMax 0 x` is the identity on nonnegative integers. -/
theorem intMax_zero_of_nonneg {x : ℤ} (hx : 0 ≤ x) : intMax 0 x = x := by
  unfold intMax
  omega

/-- `intMax 0 x` is always nonnegative. -/
theorem intMax_zero_nonneg (x : ℤ) : 0 ≤ intMax 0 x := by
  unfold intMax
  omega

/-- C1 (counterexample). The claim's formula uses round-half-away-from-zero,
but Python's `round` rounds ties to even: at `home_quote = 7.0`,
`away_quote = 1.0` (both exactly representable; `diff * 0.75 = 4.5` exact) and
random bit 0, the code returns `(0, 4)` while the claimed formula gives
`(0, 5)`. -/
theorem calculate_tip_spec_rounding_counterexample :
    calculate_tip ⟨7, 1⟩ ⟨1, 1⟩ false = (0, 4) ∧
    calculateTipSpec ⟨7, 1⟩ ⟨1, 1⟩ false = (0, 5) ∧
    calculate_tip ⟨7, 1⟩ ⟨1, 1⟩ false ≠ calculateTipSpec ⟨7, 1⟩ ⟨1, 1⟩ false := by
  decide

/-- C1 (amended). For every pair of quotes (any fractions with positive
denominators) and either random bit, `calculate_tip` returns exactly the
spec's formula with `round` amended to Python's round-half-to-even: with
`diff = homeQuote - awayQuote` and `coefficient = 0.3 if |diff| > 7 else
0.75`, it returns `(r, r)` when `|diff| < 0.25`,
`(round(-diff·coefficient) + r, r)` when `diff < 0`, and
`(r, round(diff·coefficient) + r)` otherwise, where `round` is
round-half-to-even (the `max(0, ·)` clamp in the code is a no-op). -/
theorem calculate_tip_matches_half_even_spec (h a : Frac) (r : Bool)
    (hh : 0 < h.den) (ha : 0 < a.den) :
    calculate_tip h a r = calculateTipSpecHalfEven h a r := by
  unfold calculate_tip calculateTipSpecHalfEven
  have hden : 0 < (h.sub a).den := by
    simp only [Frac.sub]
    exact mul_pos hh ha
  dsimp only
  by_cases h1 : Frac.blt (h.sub a).babs ⟨1, 4⟩ = true
  · simp only [if_pos h1]
  · simp only [if_neg h1]
    have hcnum : (if Frac.blt ⟨7, 1⟩ (h.sub a).babs then (⟨3, 10⟩ : Frac) else ⟨3, 4⟩).num = 3 := by
      split <;> rfl
    have hcden : 0 < (if Frac.blt ⟨7, 1⟩ (h.sub a).babs then (⟨3, 10⟩ : Frac) else ⟨3, 4⟩).den := by
      split <;> decide
    by_cases h2 : Frac.blt (h.sub a) ⟨0, 1⟩ = true
    · simp only [if_pos h2]
      have hval : (h.sub a).num < 0 := by
        simp only [Frac.blt, decide_eq_true_eq] at h2
        omega
      have hnum : 0 ≤ ((h.sub a).neg.mul
          (if Frac.blt ⟨7, 1⟩ (h.sub a).babs then (⟨3, 10⟩ : Frac) else ⟨3, 4⟩)).num := by
        simp only [Frac.neg, Frac.mul, hcnum]
        omega
      have hdd : 0 < ((h.sub a).neg.mul
          (if Frac.blt ⟨7, 1⟩ (h.sub a).babs then (⟨3, 10⟩ : Frac) else ⟨3, 4⟩)).den := by
        simp only [Frac.neg, Frac.mul]
        exact mul_pos hden hcden
      rw [intMax_zero_of_nonneg (Frac.pyRound_nonneg hnum hdd)]
    · simp only [if_neg h2]
      have hval : 0 ≤ (h.sub a).num := by
        simp only [Frac.blt, decide_eq_true_eq] at h2
        omega
      have hnum : 0 ≤ ((h.sub a).mul
          (if Frac.blt ⟨7, 1⟩ (h.sub a).babs then (⟨3, 10⟩ : Frac) else ⟨3, 4⟩)).num := by
        simp only [Frac.mul, hcnum]
        omega
      have hdd : 0 < ((h.sub a).mul
          (if Frac.blt ⟨7, 1⟩ (h.sub a).babs then (⟨3, 10⟩ : Frac) else ⟨3, 4⟩)).den := by
        simp only [Frac.mul]
        exact mul_pos hden hcden
      rw [intMax_zero_of_nonneg (Frac.pyRound_nonneg hnum hdd)]

/-- C1 (witness): the amended theorem instantiated at `home = 1.5`,
`away = 6.0`, random bit 1. -/
theorem calculate_tip_matches_half_even_spec_witness :
    calculate_tip ⟨15, 10⟩ ⟨6, 1⟩ true = calculateTipSpecHalfEven ⟨15, 10⟩ ⟨6, 1⟩ true :=
  calculate_tip_matches_half_even_spec ⟨15, 10⟩ ⟨6, 1⟩ true (by decide) (by decide)

/-- C10. For every pair of quotes (positive values, positive denominators)
and either value of the random bit, both goal counts returned by
`calculate_tip` are nonnegative. -/
theorem calculate_tip_nonneg (h a : Frac) (r : Bool)
    (hhd : 0 < h.den) (hhn : 0 < h.num) (had : 0 < a.den) (han : 0 < a.num) :
    0 ≤ (calculate_tip h a r).1 ∧ 0 ≤ (calculate_tip h a r).2 := by
  unfold calculate_tip
  have hrg : (0 : ℤ) ≤ if r then 1 else 0 := by split <;> omega
  dsimp only
  split
  · exact ⟨hrg, hrg⟩
  · split
    · refine ⟨?_, hrg⟩
      have := intMax_zero_nonneg
          (((h.sub a).neg.mul (if Frac.blt ⟨7, 1⟩ (h.sub a).babs then (⟨3, 10⟩ : Frac) else ⟨3, 4⟩)).pyRound)
      omega
    · refine ⟨hrg, ?_⟩
      have := intMax_zero_nonneg
          (((h.sub a).mul (if Frac.blt ⟨7, 1⟩ (h.sub a).babs then (⟨3, 10⟩ : Frac) else ⟨3, 4⟩)).pyRound)
      omega

/-- C10 (witness): nonnegativity at `home = 1.5`, `away = 3.2`, random bit 0. -/
theorem calculate_tip_nonneg_witness :
    0 ≤ (calculate_tip ⟨15, 10⟩ ⟨32, 10⟩ false).1 ∧
    0 ≤ (calculate_tip ⟨15, 10⟩ ⟨32, 10⟩ false).2 :=
  calculate_tip_nonneg ⟨15, 10⟩ ⟨32, 10⟩ false (by decide) (by decide) (by decide) (by decide)

/-! ## Python string operations

Structurally recursive models of the string operations the source uses:
`str.strip`, `str.split(sep)`, `sep in s`, `str.replace`, `float(s)`,
`str(int)` and `datetime.strptime(s, '%d.%m.%y %H:%M')`. Fuel arguments
(always instantiated with the string length plus one, which never runs out
for the nonempty separators used) keep the recursion structural so that the
kernel can evaluate every definition. -/

/-- The whitespace characters `str.strip` removes. -/
def isSpaceChar (c : Char) : Bool :=
  c == ' ' || c == '\t' || c == '\n' || c == '\r' || c == '\x0b' || c == '\x0c'

/-- `str.strip()` on a character list. -/
def pyStripChars (cs : List Char) : List Char :=
  ((cs.dropWhile isSpaceChar).reverse.dropWhile isSpaceChar).reverse

/-- `str.strip()`. -/
def pyStrip (s : String) : String := String.mk (pyStripChars s.data)

/-- Worker for `str.split(sep)`: scan left to right, cutting at each
occurrence of `sep` (non-overlapping); `acc` holds the current chunk
reversed. -/
def pySplitGo (sep : List Char) : ℕ → List Char → List Char → List (List Char)
  | _, [], acc => [acc.reverse]
  | 0, cs, acc => [acc.reverse ++ cs]
  | fuel + 1, c :: cs, acc =>
    if sep.isPrefixOf (c :: cs) then
      acc.reverse :: pySplitGo sep fuel (List.drop sep.length (c :: cs)) []
    else
      pySplitGo sep fuel cs (c :: acc)

/-- `s.split(sep)` for a nonempty separator. -/
def pySplit (s sep : String) : List String :=
  (pySplitGo sep.data (s.data.length + 1) s.data []).map String.mk

/-- Substring search on character lists. -/
def hasSubChars (pat : List Char) : List Char → Bool
  | [] => pat.isEmpty
  | c :: cs => pat.isPrefixOf (c :: cs) || hasSubChars pat cs

/-- Python's `needle in hay` on strings. -/
def pyIn (needle hay : String) : Bool := hasSubChars needle.data hay.data

/-- Worker for `str.replace(pat, rep)`: replace each non-overlapping
occurrence left to right. -/
def pyReplaceGo (pat rep : List Char) : ℕ → List Char → List Char
  | _, [] => []
  | 0, cs => cs
  | fuel + 1, c :: cs =>
    if pat.isPrefixOf (c :: cs) && !pat.isEmpty then
      rep ++ pyReplaceGo pat rep fuel (List.drop pat.length (c :: cs))
    else
      c :: pyReplaceGo pat rep fuel cs

/-- `s.replace(pat, rep)` for a nonempty pattern. -/
def pyReplace (s pat rep : String) : String :=
  String.mk (pyReplaceGo pat.data rep.data (s.data.length + 1) s.data)

/-- Numeric value of a digit character. -/
def digitVal (c : Char) : ℕ := c.toNat - 48

/-- Value of a digit string (most significant first). -/
def digitsToNat (cs : List Char) : ℕ := cs.foldl (fun n c => n * 10 + digitVal c) 0

/-- Python's `float(s)` on plain decimal literals (optional surrounding
whitespace, optional sign, `digits`, `digits.digits`, `digits.` or
`.digits`), returning the exact decimal value as an unnormalized fraction
with denominator `10 ^ (number of fraction digits)`. Special values
(`inf`, `nan`) and exponent notation are outside the model; no such tokens
occur in the claims. -/
def parseFloat (s : String) : Option Frac :=
  let t := pyStripChars s.data
  let sgnbody : ℤ × List Char :=
    match t with
    | '-' :: rest => (-1, rest)
    | '+' :: rest => (1, rest)
    | _ => (1, t)
  let sgn := sgnbody.1
  let body := sgnbody.2
  let ip := body.takeWhile Char.isDigit
  let rest := body.dropWhile Char.isDigit
  match rest with
  | [] =>
    if ip.isEmpty then none
    else some ⟨sgn * (digitsToNat ip : ℤ), 1⟩
  | '.' :: fp =>
    if fp.all Char.isDigit && !(ip.isEmpty && fp.isEmpty) then
      some ⟨sgn * ((digitsToNat ip : ℤ) * 10 ^ fp.length + (digitsToNat fp : ℤ)),
            (10 : ℤ) ^ fp.length⟩
    else none
  | _ => none

/-- Worker for `str(n)` on naturals: peel decimal digits. -/
def natToStrGo : ℕ → ℕ → List Char → List Char
  | 0, _, acc => acc
  | fuel + 1, n, acc =>
    if n < 10 then Char.ofNat (48 + n) :: acc
    else natToStrGo fuel (n / 10) (Char.ofNat (48 + n % 10) :: acc)

/-- Python's `str(n)` on a natural number. -/
def natToStr (n : ℕ) : String := String.mk (natToStrGo (n + 1) n [])

/-- Python's `str(i)` on an integer. -/
def intToStr (i : ℤ) : String :=
  if i < 0 then String.mk ('-' :: natToStrGo (i.natAbs + 1) i.natAbs [])
  else natToStr i.natAbs

/-- Value of a pair of digit characters. -/
def parseTwoDigits (a b : Char) : Option ℕ :=
  if a.isDigit && b.isDigit then some (digitVal a * 10 + digitVal b) else none

/-- `datetime.strptime(s, '%d.%m.%y %H:%M')`, on zero-padded inputs,
returning the kickoff instant as an integer minute count. The encoding
`((((yy·13 + mm)·32 + dd)·24 + hh)·60 + mi` is order-isomorphic to
chronological order for years 2000–2068 (the range `%y` maps to for
`00`–`68`), which is all the claims compare. Malformed or out-of-range
strings are rejected, exactly as `strptime` raises `ValueError`. -/
def parseTimeFormat (s : String) : Option ℤ :=
  match s.data with
  | [d1, d2, '.', m1, m2, '.', y1, y2, ' ', h1, h2, ':', n1, n2] =>
    match parseTwoDigits d1 d2, parseTwoDigits m1 m2, parseTwoDigits y1 y2,
          parseTwoDigits h1 h2, parseTwoDigits n1 n2 with
    | some dd, some mm, some yy, some hh, some mi =>
      if 1 ≤ dd ∧ dd ≤ 31 ∧ 1 ≤ mm ∧ mm ≤ 12 ∧ hh ≤ 23 ∧ mi ≤ 59 then
        some ((((((yy * 13 + mm) * 32 + dd) * 24 + hh) * 60 + mi : ℕ) : ℤ))
      else none
    | _, _, _, _, _ => none
  | _ => none

example : pyStrip "  1.5 " = "1.5" := by decide
example : pySplit "1.5 / 3.2 / 4.8" " / " = ["1.5", "3.2", "4.8"] := by decide
example : pySplit "1.5 | 3.2 | 4.8" " | " = ["1.5", "3.2", "4.8"] := by decide
example : pyIn " / " "1.5 / 3.2" = true := by decide
example : pyIn " / " "1.5 | 3.2" = false := by decide
example : pyReplace "Quote: 2.0 / 3.0" "Quote: " "" = "2.0 / 3.0" := by decide
example : parseFloat "1.5" = some ⟨15, 10⟩ := by decide
example : parseFloat " -1.0 " = some ⟨-10, 10⟩ := by decide
example : parseFloat "3" = some ⟨3, 1⟩ := by decide
example : parseFloat "abc" = none := by decide
example : parseFloat "" = none := by decide
example : intToStr (-12) = "-12" := by decide
example : intToStr 0 = "0" := by decide
example : intToStr 230 = "230" := by decide
example : parseTimeFormat "01.03.25 15:30" = some 15116610 := by decide
example : parseTimeFormat "kickoff unknown" = none := by decide
example : parseTimeFormat "32.03.25 15:30" = none := by decide

/-- `str(i)` is never the empty string. -/
theorem intToStr_ne_empty (i : ℤ) : intToStr i ≠ "" := by
  have hlen : ∀ fuel n (acc : List Char), acc.length ≤ (natToStrGo fuel n acc).length := by
    intro fuel
    induction fuel with
    | zero => intro n acc ; simp [natToStrGo]
    | succ fuel ih =>
      intro n acc
      unfold natToStrGo
      split
      · simp
      · have := ih (n / 10) (Char.ofNat (48 + n % 10) :: acc)
        simp at this
        omega
  have hne : ∀ n, natToStrGo (n + 1) n [] ≠ [] := by
    intro n
    unfold natToStrGo
    split
    · simp
    · intro hcontra
      have := hlen n (n / 10) [Char.ofNat (48 + n % 10)]
      rw [hcontra] at this
      simp at this
  unfold intToStr natToStr
  split
  · intro hcontra
    have : ('-' :: natToStrGo (i.natAbs + 1) i.natAbs []) = ([] : List Char) :=
      congrArg String.data hcontra
    simp at this
  · intro hcontra
    exact hne i.natAbs (congrArg String.data hcontra)

/-! ## The `Game` model (src/src/kicktipp_bot/models/game.py, lines 11-45)

```python
def __init__(self, home_team, away_team, quotes, game_time):
    self.home_team = home_team.strip()
    self.away_team = away_team.strip()
    self.quotes = self._validate_quotes(quotes)
    self.game_time = game_time

def _validate_quotes(self, quotes):
    if len(quotes) != 3:
        raise ValueError(f"Expected 3 quotes, got {len(quotes)}")
    try:
        return [float(quote) for quote in quotes]
    except (ValueError, TypeError) as e:
        raise ValueError(f"Invalid quote values: {quotes}") from e
```
The raising constructor is embedded as an `Except`-returning function. -/

/-- `[float(quote) for quote in quotes]`: all-or-nothing float conversion. -/
def parse_all_quotes : List String → Option (List Frac)
  | [] => some []
  | q :: rest =>
    match parseFloat q, parse_all_quotes rest with
    | some v, some vs => some (v :: vs)
    | _, _ => none

/-- `Game._validate_quotes`: exactly 3 entries, each convertible by
`float(...)`; raises (returns `.error`) otherwise. -/
def validate_quotes (quotes : List String) : Except String (List Frac) :=
  if quotes.length ≠ 3 then .error "Expected 3 quotes"
  else
    match parse_all_quotes quotes with
    | some vs => .ok vs
    | none => .error "Invalid quote values"

/-- A successfully constructed game record. -/
structure Game where
  home_team : String
  away_team : String
  quotes : List Frac
  game_time : ℤ
deriving DecidableEq, Repr

/-- `Game.__init__`, embedded as a fallible constructor. -/
def Game.init (home_team away_team : String) (quotes : List String)
    (game_time : ℤ) : Except String Game :=
  match validate_quotes quotes with
  | .error e => .error e
  | .ok vs => .ok ⟨pyStrip home_team, pyStrip away_team, vs, game_time⟩

example : Game.init "A" "B" ["1.5", "3.2", "4.8"] 7 =
    .ok ⟨"A", "B", [⟨15, 10⟩, ⟨32, 10⟩, ⟨48, 10⟩], 7⟩ := rfl
example : Game.init "A" "B" ["1.5", "3.2"] 7 = .error "Expected 3 quotes" := rfl
example : Game.init "A" "B" ["1.5", "3.2", "abc"] 7 = .error "Invalid quote values" := rfl

/-- `parse_all_quotes` succeeds exactly when every token parses. -/
theorem parse_all_quotes_isSome (qs : List String) :
    (parse_all_quotes qs).isSome = true ↔ ∀ q ∈ qs, (parseFloat q).isSome = true := by
  induction qs with
  | nil => simp [parse_all_quotes]
  | cons q rest ih =>
    simp only [parse_all_quotes]
    cases hq : parseFloat q <;> cases hr : parse_all_quotes rest <;>
      simp_all [Option.isSome]

/-- C7 (counterexample). Construction does not enforce positivity: the quote
list `["-1.0", "2.0", "3.0"]` — not three *positive* values — still yields a
game record, whose first quote has the negative value `-1`. -/
theorem game_construction_accepts_negative_quote :
    Game.init "Team A" "Team B" ["-1.0", "2.0", "3.0"] 0 =
      .ok ⟨"Team A", "Team B", [⟨-10, 10⟩, ⟨20, 10⟩, ⟨30, 10⟩], 0⟩ ∧
    (Frac.val ⟨-10, 10⟩ < 0) := by
  refine ⟨rfl, ?_⟩
  norm_num [Frac.val]

/-- C7 (amended). A game record is successfully constructed **iff** the
quote list has exactly 3 entries and each parses as a float; the parsed
values are stored as given — positivity (and, in the Python original,
finiteness) of the quotes is not checked. -/
theorem game_construction_iff_three_parseable (home away : String)
    (quotes : List String) (t : ℤ) :
    (∃ g, Game.init home away quotes t = .ok g) ↔
      (quotes.length = 3 ∧ ∀ q ∈ quotes, (parseFloat q).isSome = true) := by
  constructor
  · rintro ⟨g, hg⟩
    unfold Game.init validate_quotes at hg
    by_cases hlen : quotes.length = 3
    · refine ⟨hlen, ?_⟩
      rw [← parse_all_quotes_isSome]
      cases hp : parse_all_quotes quotes
      · rw [if_neg (by omega), hp] at hg
        simp at hg
      · simp [hp]
    · rw [if_pos (by omega)] at hg
      simp at hg
  · rintro ⟨hlen, hall⟩
    rw [← parse_all_quotes_isSome] at hall
    cases hp : parse_all_quotes quotes
    · rw [hp] at hall
      simp [Option.isSome] at hall
    · rename_i vs
      refine ⟨⟨pyStrip home, pyStrip away, vs, t⟩, ?_⟩
      unfold Game.init validate_quotes
      rw [if_neg (by omega), hp]

/-- C7 (witness): the amended characterization applied to a concrete
well-formed quote list. -/
theorem game_construction_iff_three_parseable_witness :
    ∃ g, Game.init "FC A" "FC B" ["1.5", "3.2", "4.8"] 42 = .ok g :=
  (game_construction_iff_three_parseable "FC A" "FC B" ["1.5", "3.2", "4.8"] 42).mpr
    (by decide)

/-! ## The row-processing pipeline
    (src/src/kicktipp_bot/core/game_tipper.py, `GameTipper`)

The live document is modelled as a list of `RowData` (one entry per
`tbody/tr` row, 1-indexed by XPath as in the source; `getRow` returns `none`
for indices outside the table, which is when `safe_find_element` on the row
XPath fails). The remaining environment interactions of `tip_all_games`
(page load, locating the table, counting rows, the submit control and its
two click mechanisms) are modelled by the flags of `TipEnv`. `datetime.now()`
is the parameter `now`; `Config.TIME_UNTIL_GAME` is the `threshold`
(minutes); the per-row random bits are the injected function `rand`. -/

/-- The configuration values the tipping pipeline can see
(src/src/kicktipp_bot/config.py): the `OVERWRITE_TIPS` flag (line 24) and
the tipping threshold `TIME_UNTIL_GAME` (line 32, as minutes). -/
structure Config where
  OVERWRITE_TIPS : Bool
  TIME_UNTIL_GAME : ℤ
deriving DecidableEq, Repr

/-- One `tbody/tr` row of the tipping table, as the pipeline reads it:
`timeCell` is the `innerHTML` of `td[1]` (`none` when the cell is missing),
`homeTeam`/`awayTeam` the `innerHTML` of `td[2]`/`td[3]`, `hasTipFields`
whether the two `heimTipp`/`gastTipp` inputs exist, `homeVal`/`awayVal`
their current `value` attributes (`''` when unset), and `quotesCell` the
`innerHTML` of `td[5]/a` (`none` when that element is missing). -/
structure RowData where
  timeCell : Option String
  homeTeam : Option String
  awayTeam : Option String
  hasTipFields : Bool
  homeVal : String
  awayVal : String
  quotesCell : Option String
deriving DecidableEq, Repr

/-- Resolve the XPath `//*[@id="tippabgabeSpiele"]/tbody/tr[i]` (1-based;
`none` when no such row exists). -/
def getRow (doc : List RowData) (i : ℕ) : Option RowData :=
  if i = 0 then none else doc.get? (i - 1)

/-- The `innerHTML` of `tr[i]/td[1]`, when row and cell exist. -/
def timeAt (doc : List RowData) (i : ℕ) : Option String :=
  (getRow doc i).bind (·.timeCell)

/-- `GameTipper._find_game_time` (lines 236-259): walk rows `i, i-1, …, 1`;
the first row whose time cell exists, is nonempty after stripping and
parses by `strptime('%d.%m.%y %H:%M')` supplies the kickoff time; otherwise
fall back to `datetime.now()`. -/
def find_game_time (doc : List RowData) : ℕ → ℤ → ℤ
  | 0, now => now
  | j + 1, now =>
    match timeAt doc (j + 1) with
    | none => find_game_time doc j now
    | some s =>
      if pyStrip s = "" then find_game_time doc j now
      else
        match parseTimeFormat (pyStrip s) with
        | some t => t
        | none => find_game_time doc j now

/-- `GameTipper._extract_game_info` (lines 204-234): the kickoff time (via
`_find_game_time`) and the stripped team names; `none` when a team cell is
missing or its text empty. -/
def extract_game_info (doc : List RowData) (i : ℕ) (now : ℤ) :
    Option (ℤ × String × String) :=
  let game_time := find_game_time doc i now
  match getRow doc i with
  | none => none
  | some row =>
    match row.homeTeam with
    | none => none
    | some home_team =>
      match row.awayTeam with
      | none => none
      | some away_team =>
        if home_team = "" ∨ away_team = "" then none
        else some (game_time, pyStrip home_team, pyStrip away_team)

/-- `GameTipper._is_already_tipped` (lines 282-286): both `value`
attributes nonempty. -/
def is_already_tipped (row : RowData) : Bool :=
  !(row.homeVal == "") && !(row.awayVal == "")

/-- `GameTipper._should_tip_game` (lines 288-298): skip only when the time
until kickoff exceeds `Config.TIME_UNTIL_GAME`. -/
def should_tip_game (threshold game_time now : ℤ) : Bool :=
  if threshold < game_time - now then false else true

/-- `GameTipper._extract_quotes` (lines 300-328): strip the `"Quote: "`
prefix, split on `" / "` or else `" | "`, and require exactly 3 tokens. -/
def extract_quotes (cell : Option String) : Option (List String) :=
  match cell with
  | none => none
  | some quotes_raw =>
    if quotes_raw = "" then none
    else
      let quotes_text := pyStrip (pyReplace quotes_raw "Quote: " "")
      let split : Option (List String) :=
        if pyIn " / " quotes_text then some (pySplit quotes_text " / ")
        else if pyIn " | " quotes_text then some (pySplit quotes_text " | ")
        else none
      match split with
      | none => none
      | some quotes => if quotes.length = 3 then some quotes else none

/-- `GameTipper._enter_tip` (lines 330-353): clear both fields and type
`str(tip[0])`, `str(tip[1])`. -/
def enter_tip (doc : List RowData) (i : ℕ) (tip : ℤ × ℤ) : List RowData :=
  match getRow doc i with
  | none => doc
  | some row =>
    doc.set (i - 1) { row with homeVal := intToStr tip.1, awayVal := intToStr tip.2 }

/-- `GameTipper._process_single_game` (lines 120-197): the per-row pipeline
with its short-circuiting skip rules, returning whether the row was
processed together with the updated document. -/
def process_single_game (threshold : ℤ) (doc : List RowData) (i : ℕ)
    (now : ℤ) (r : Bool) : Bool × List RowData :=
  match getRow doc i with
  | none => (false, doc)
  | some row =>
    match extract_game_info doc i now with
    | none => (false, doc)
    | some info =>
      if row.hasTipFields = false then (false, doc)
      else if is_already_tipped row then (false, doc)
      else if should_tip_game threshold info.1 now = false then (false, doc)
      else
        match extract_quotes row.quotesCell with
        | none => (false, doc)
        | some quotes =>
          match Game.init info.2.1 info.2.2 quotes info.1 with
          | .error _ => (false, doc)
          | .ok game =>
            let tip := calculate_tip (game.quotes.getD 0 ⟨0, 1⟩)
              (game.quotes.getD 2 ⟨0, 1⟩) r
            (true, enter_tip doc i tip)

/-- Python's `range(a, b)`. -/
def pyRange (a b : ℕ) : List ℕ := List.range' a (b - a)

/-- The loop of `tip_all_games` (lines 64-73): process the games in
ascending row order, counting the successfully processed ones; every
per-row failure is absorbed (`except: continue`). -/
def run_games (threshold now : ℤ) (rand : ℕ → Bool) :
    List ℕ → List RowData → ℕ × List RowData
  | [], doc => (0, doc)
  | i :: rest, doc =>
    let res := process_single_game threshold doc i now (rand i)
    let res2 := run_games threshold now rand rest res.2
    ((if res.1 then 1 else 0) + res2.1, res2.2)

/-- The environment interactions of `tip_all_games` that are not row
reads: page load success, whether the `tippabgabeSpiele` table and rows are
found, and the submit control's behavior. -/
structure TipEnv where
  pageLoads : Bool
  tableFound : Bool
  datarowCount : ℕ
  tableRowsCount : ℕ
  submitFound : Bool
  clickOk : Bool
  jsClickOk : Bool
deriving DecidableEq, Repr

/-- `GameTipper._get_games_count` (lines 92-118): 0 when the table is
missing; else the number of `datarow` elements; else (fallback) the number
of `tr` rows minus the header when more than one. -/
def games_count (env : TipEnv) : ℕ :=
  if env.tableFound = false then 0
  else if env.datarowCount ≠ 0 then env.datarowCount
  else if env.tableRowsCount > 1 then env.tableRowsCount - 1
  else 0

/-- `GameTipper.tip_all_games` (lines 33-90) together with
`_submit_all_tips` (lines 355-388), embedded over the abstract environment:
a failed page load raises; a zero games count returns normally **without
submitting**; otherwise the rows `1 … games_count - 1` are processed and
the form is submitted — a missing submit button raises, a failed regular
click falls back to the JavaScript click, and only if both fail does the
run raise. -/
def tip_all_games (env : TipEnv) (cfg : Config) (doc : List RowData)
    (now : ℤ) (rand : ℕ → Bool) : Except String (ℕ × List RowData) :=
  if env.pageLoads = false then .error "Tipping page failed to load"
  else if games_count env = 0 then .ok (0, doc)
  else
    let res := run_games cfg.TIME_UNTIL_GAME now rand (pyRange 1 (games_count env)) doc
    if env.submitFound = false then .error "Submit button not found"
    else if env.clickOk || env.jsClickOk then .ok res
    else .error "Failed to submit tips form"

/-- `GameDataExtractor.extract_quotes`, legacy branch
(src/src/kicktipp_bot/core/table_processors.py, lines 241-262): like
`_extract_quotes` but with each token stripped. -/
def legacy_quotes (quotes_raw : String) : Option (List String) :=
  if quotes_raw = "" then none
  else
    let txt := pyStrip (pyReplace quotes_raw "Quote: " "")
    let parts : Option (List String) :=
      if pyIn " / " txt then some ((pySplit txt " / ").map pyStrip)
      else if pyIn " | " txt then some ((pySplit txt " | ").map pyStrip)
      else none
    match parts with
    | none => none
    | some ps => if ps.length = 3 then some ps else none

/-! ## Pipeline facts

The idempotence analysis rests on a small theory of how one run can change
the document: a processed run only rewrites the two prediction-field values
of written rows (to nonempty strings), leaving every other field of every
row — in particular every time cell — untouched. -/

/-- The fields of a row the pipeline never writes. -/
def sameCore (r r' : RowData) : Prop :=
  r.timeCell = r'.timeCell ∧ r.homeTeam = r'.homeTeam ∧ r.awayTeam = r'.awayTeam ∧
  r.hasTipFields = r'.hasTipFields ∧ r.quotesCell = r'.quotesCell

/-- How one slot of the document can evolve across a run: it stays absent,
stays unchanged, or keeps its core with both prediction fields now
nonempty. -/
def rowEvolves : Option RowData → Option RowData → Prop
  | none, none => True
  | some r, some r' => sameCore r r' ∧ (r' = r ∨ (r'.homeVal ≠ "" ∧ r'.awayVal ≠ ""))
  | _, _ => False

theorem rowEvolves_refl (o : Option RowData) : rowEvolves o o := by
  cases o with
  | none => trivial
  | some r => exact ⟨⟨rfl, rfl, rfl, rfl, rfl⟩, Or.inl rfl⟩

theorem rowEvolves_trans {o₁ o₂ o₃ : Option RowData}
    (h12 : rowEvolves o₁ o₂) (h23 : rowEvolves o₂ o₃) : rowEvolves o₁ o₃ := by
  cases o₁ with
  | none =>
    cases o₂ with
    | none => exact h23
    | some r₂ => exact False.elim h12
  | some r₁ =>
    cases o₂ with
    | none => exact False.elim h12
    | some r₂ =>
      cases o₃ with
      | none => exact False.elim h23
      | some r₃ =>
        obtain ⟨⟨c1, c2, c3, c4, c5⟩, hv12⟩ := h12
        obtain ⟨⟨d1, d2, d3, d4, d5⟩, hv23⟩ := h23
        refine ⟨⟨c1.trans d1, c2.trans d2, c3.trans d3, c4.trans d4, c5.trans d5⟩, ?_⟩
        rcases hv23 with hv23 | hv23
        · rw [hv23]
          exact hv12
        · exact Or.inr hv23

/-- Evolution preserves every time cell. -/
theorem timeAt_eq_of_rowEvolves {d d' : List RowData} {j : ℕ}
    (h : rowEvolves (getRow d j) (getRow d' j)) : timeAt d' j = timeAt d j := by
  unfold timeAt
  cases h1 : getRow d j with
  | none =>
    cases h2 : getRow d' j with
    | none => rfl
    | some r' =>
      rw [h1, h2] at h
      exact False.elim h
  | some r =>
    cases h2 : getRow d' j with
    | none =>
      rw [h1, h2] at h
      exact False.elim h
    | some r' =>
      rw [h1, h2] at h
      obtain ⟨⟨c1, -⟩, -⟩ := h
      simp [c1]

/-- `_find_game_time` reads only the time cells. -/
theorem find_game_time_congr {d d' : List RowData}
    (ht : ∀ j, timeAt d' j = timeAt d j) :
    ∀ (i : ℕ) (now : ℤ), find_game_time d' i now = find_game_time d i now := by
  intro i
  induction i with
  | zero => intro now ; rfl
  | succ j ih =>
    intro now
    unfold find_game_time
    rw [ht (j + 1)]
    cases timeAt d (j + 1) with
    | none => exact ih now
    | some s =>
      dsimp only
      split
      · exact ih now
      · cases parseTimeFormat (pyStrip s) with
        | none => exact ih now
        | some t => rfl

/-- `_extract_game_info` reads only the time cells and the row itself. -/
theorem extract_game_info_congr {d d' : List RowData} {i : ℕ} (now : ℤ)
    (ht : ∀ j, timeAt d' j = timeAt d j) (hrow : getRow d' i = getRow d i) :
    extract_game_info d' i now = extract_game_info d i now := by
  unfold extract_game_info
  rw [hrow, find_game_time_congr ht]

/-- The row-acceptance decision of `_process_single_game`, separated from
its write effect. -/
def tip_decision (th : ℤ) (d : List RowData) (i : ℕ) (now : ℤ) : Bool :=
  match getRow d i with
  | none => false
  | some row =>
    match extract_game_info d i now with
    | none => false
    | some info =>
      if row.hasTipFields = false then false
      else if is_already_tipped row then false
      else if should_tip_game th info.1 now = false then false
      else
        match extract_quotes row.quotesCell with
        | none => false
        | some quotes =>
          match Game.init info.2.1 info.2.2 quotes info.1 with
          | .error _ => false
          | .ok _ => true

/-- The processed flag of `_process_single_game` is its decision — it does
not depend on the drawn random bit. -/
theorem process_fst_eq_decision (th : ℤ) (d : List RowData) (i : ℕ)
    (now : ℤ) (r : Bool) :
    (process_single_game th d i now r).1 = tip_decision th d i now := by
  unfold process_single_game tip_decision
  cases h1 : getRow d i with
  | none => rfl
  | some row =>
    cases h2 : extract_game_info d i now with
    | none => rfl
    | some info =>
      dsimp only
      split_ifs
      · rfl
      · rfl
      · rfl
      · cases h3 : extract_quotes row.quotesCell with
        | none => rfl
        | some quotes =>
          dsimp only
          cases h4 : Game.init info.2.1 info.2.2 quotes info.1 with
          | error e => rfl
          | ok game => rfl

/-- The decision depends only on the time cells and the row itself. -/
theorem tip_decision_congr {th now : ℤ} {d d' : List RowData} {i : ℕ}
    (ht : ∀ j, timeAt d' j = timeAt d j) (hrow : getRow d' i = getRow d i) :
    tip_decision th d' i now = tip_decision th d i now := by
  unfold tip_decision
  rw [hrow, extract_game_info_congr now ht hrow]

/-- A negative decision leaves the document unchanged. -/
theorem process_of_decision_false {th : ℤ} {d : List RowData} {i : ℕ}
    {now : ℤ} (r : Bool) (h : tip_decision th d i now = false) :
    process_single_game th d i now r = (false, d) := by
  unfold tip_decision at h
  unfold process_single_game
  cases h1 : getRow d i with
  | none => rfl
  | some row =>
    rw [h1] at h
    cases h2 : extract_game_info d i now with
    | none => rfl
    | some info =>
      rw [h2] at h
      dsimp only at h ⊢
      split_ifs at h ⊢ <;> try rfl
      cases h3 : extract_quotes row.quotesCell with
      | none => rfl
      | some quotes =>
        rw [h3] at h
        dsimp only at h ⊢
        cases h4 : Game.init info.2.1 info.2.2 quotes info.1 with
        | error e => rfl
        | ok game =>
          rw [h4] at h
          cases h

/-- Each processing step either leaves the document unchanged or rewrites
exactly the prediction fields of its row. -/
theorem process_cases (th : ℤ) (d : List RowData) (i : ℕ) (now : ℤ) (r : Bool) :
    process_single_game th d i now r = (false, d) ∨
    ∃ row tip, getRow d i = some row ∧
      process_single_game th d i now r = (true, enter_tip d i tip) := by
  unfold process_single_game
  cases h1 : getRow d i with
  | none => exact Or.inl rfl
  | some row =>
    cases h2 : extract_game_info d i now with
    | none => exact Or.inl rfl
    | some info =>
      dsimp only
      split_ifs
      · exact Or.inl rfl
      · exact Or.inl rfl
      · exact Or.inl rfl
      · cases h3 : extract_quotes row.quotesCell with
        | none => exact Or.inl rfl
        | some quotes =>
          dsimp only
          cases h4 : Game.init info.2.1 info.2.2 quotes info.1 with
          | error e => exact Or.inl rfl
          | ok game => exact Or.inr ⟨row, _, rfl, rfl⟩

/-- Writing a tip into row `i` updates exactly that slot, to the row with
both prediction fields set to the rendered goal counts. -/
theorem getRow_enter_tip_self {d : List RowData} {i : ℕ} {row : RowData}
    (tip : ℤ × ℤ) (h : getRow d i = some row) :
    getRow (enter_tip d i tip) i =
      some { row with homeVal := intToStr tip.1, awayVal := intToStr tip.2 } := by
  unfold enter_tip
  rw [h]
  unfold getRow at h ⊢
  by_cases hi : i = 0
  · rw [if_pos hi] at h
    cases h
  · rw [if_neg hi] at h ⊢
    have hlt : i - 1 < d.length := (List.get?_eq_some.mp h).1
    rw [List.get?_eq_getElem?, List.getElem?_set_self']
    simp [hlt]

/-- Writing a tip into row `i` leaves every other slot unchanged. -/
theorem getRow_enter_tip_ne {d : List RowData} {i : ℕ} (tip : ℤ × ℤ) (j : ℕ)
    (hne : j ≠ i) : getRow (enter_tip d i tip) j = getRow d j := by
  unfold enter_tip
  cases h : getRow d i with
  | none => rfl
  | some row =>
    have hi : ¬i = 0 := by
      intro hi0
      unfold getRow at h
      rw [if_pos hi0] at h
      cases h
    unfold getRow
    by_cases hj : j = 0
    · rw [if_pos hj, if_pos hj]
    · rw [if_neg hj, if_neg hj, List.get?_eq_getElem?, List.get?_eq_getElem?,
        List.getElem?_set_ne (by omega : i - 1 ≠ j - 1)]

/-- A tip write is an evolution step: cores kept, written fields nonempty. -/
theorem rowEvolves_enter_tip {d : List RowData} {i : ℕ} {row : RowData}
    (tip : ℤ × ℤ) (h : getRow d i = some row) (j : ℕ) :
    rowEvolves (getRow d j) (getRow (enter_tip d i tip) j) := by
  by_cases hj : j = i
  · subst hj
    rw [h, getRow_enter_tip_self tip h]
    exact ⟨⟨rfl, rfl, rfl, rfl, rfl⟩,
      Or.inr ⟨intToStr_ne_empty tip.1, intToStr_ne_empty tip.2⟩⟩
  · rw [getRow_enter_tip_ne tip j hj]
    exact rowEvolves_refl _

/-- A row missing from the document is never processed. -/
theorem process_of_getRow_none {th : ℤ} {d : List RowData} {i : ℕ} {now : ℤ}
    (r : Bool) (h : getRow d i = none) :
    process_single_game th d i now r = (false, d) := by
  unfold process_single_game
  rw [h]

/-- Shared skip lemma: a row whose two prediction fields are both nonempty
is never processed and the document is left unchanged, whatever the
configuration, timing or random bit. -/
theorem already_tipped_skips {threshold : ℤ} {doc : List RowData} {i : ℕ}
    {now : ℤ} {r : Bool} {row : RowData} (hrow : getRow doc i = some row)
    (hhome : row.homeVal ≠ "") (haway : row.awayVal ≠ "") :
    process_single_game threshold doc i now r = (false, doc) := by
  unfold process_single_game
  rw [hrow]
  cases hinfo : extract_game_info doc i now with
  | none => rfl
  | some info =>
    dsimp only
    by_cases htf : row.hasTipFields = false
    · rw [if_pos htf]
    · rw [if_neg htf, if_pos (by simp [is_already_tipped, hhome, haway])]

/-- Unfolding equation for the processing loop. -/
theorem run_games_cons (th now : ℤ) (rand : ℕ → Bool) (i : ℕ) (rest : List ℕ)
    (doc : List RowData) :
    run_games th now rand (i :: rest) doc =
      ((if (process_single_game th doc i now (rand i)).1 then 1 else 0) +
        (run_games th now rand rest (process_single_game th doc i now (rand i)).2).1,
       (run_games th now rand rest (process_single_game th doc i now (rand i)).2).2) := rfl

/-- Core invariant of one pipeline run: the final document evolves from the
initial one (only prediction fields of written rows change, becoming
nonempty), and — the key idempotence fact — **every** visited row is
skipped when processed again against the final document, whatever random
bits are drawn then. -/
theorem run_games_evolves_and_skips (th now : ℤ) (rand : ℕ → Bool) :
    ∀ (idx : List ℕ) (doc : List RowData),
      (∀ j, rowEvolves (getRow doc j) (getRow (run_games th now rand idx doc).2 j)) ∧
      (∀ i ∈ idx, ∀ r' : Bool,
        process_single_game th (run_games th now rand idx doc).2 i now r' =
          (false, (run_games th now rand idx doc).2)) := by
  intro idx
  induction idx with
  | nil =>
    intro doc
    exact ⟨fun j => rowEvolves_refl _, fun i hi => absurd hi (List.not_mem_nil i)⟩
  | cons i rest ih =>
    intro doc
    have hrun : (run_games th now rand (i :: rest) doc).2 =
        (run_games th now rand rest (process_single_game th doc i now (rand i)).2).2 := rfl
    rw [hrun]
    obtain ⟨ihev, ihskip⟩ := ih (process_single_game th doc i now (rand i)).2
    have hstep : ∀ j, rowEvolves (getRow doc j)
        (getRow (process_single_game th doc i now (rand i)).2 j) := by
      rcases process_cases th doc i now (rand i) with hc | ⟨row, tip, hrow, hc⟩
      · intro j
        rw [hc]
        exact rowEvolves_refl _
      · intro j
        rw [hc]
        exact rowEvolves_enter_tip tip hrow j
    have hev1 : ∀ j, rowEvolves (getRow doc j)
        (getRow (run_games th now rand rest (process_single_game th doc i now (rand i)).2).2 j) :=
      fun j => rowEvolves_trans (hstep j) (ihev j)
    refine ⟨hev1, ?_⟩
    intro k hk r'
    rcases List.mem_cons.mp hk with hk | hk
    · subst hk
      rcases process_cases th doc k now (rand k) with hc | ⟨row, tip, hrow, hc⟩
      · have htime : ∀ j, timeAt
            (run_games th now rand rest (process_single_game th doc k now (rand k)).2).2 j =
            timeAt doc j := fun j => timeAt_eq_of_rowEvolves (hev1 j)
        cases hrowf : getRow
            (run_games th now rand rest (process_single_game th doc k now (rand k)).2).2 k with
        | none => exact process_of_getRow_none r' hrowf
        | some rowf =>
          cases hrow0 : getRow doc k with
          | none =>
            have hcontra := hev1 k
            rw [hrow0, hrowf] at hcontra
            exact False.elim hcontra
          | some row0 =>
            have hev := hev1 k
            rw [hrow0, hrowf] at hev
            obtain ⟨hcore, hvals⟩ := hev
            rcases hvals with heq | ⟨hne1, hne2⟩
            · have hdec : tip_decision th
                  (run_games th now rand rest (process_single_game th doc k now (rand k)).2).2 k now =
                  tip_decision th doc k now :=
                tip_decision_congr htime (by rw [hrowf, hrow0, heq])
              have hdecdoc : tip_decision th doc k now = false := by
                have hfst := process_fst_eq_decision th doc k now (rand k)
                rw [hc] at hfst
                exact hfst.symm
              exact process_of_decision_false r' (hdec.trans hdecdoc)
            · exact already_tipped_skips hrowf hne1 hne2
      · have hd'row : getRow (process_single_game th doc k now (rand k)).2 k =
            some { row with homeVal := intToStr tip.1, awayVal := intToStr tip.2 } := by
          rw [hc]
          exact getRow_enter_tip_self tip hrow
        have hev := ihev k
        rw [hd'row] at hev
        cases hrowf : getRow
            (run_games th now rand rest (process_single_game th doc k now (rand k)).2).2 k with
        | none =>
          rw [hrowf] at hev
          exact False.elim hev
        | some rowf =>
          rw [hrowf] at hev
          obtain ⟨-, hvals⟩ := hev
          rcases hvals with heq | ⟨hne1, hne2⟩
          · refine already_tipped_skips hrowf ?_ ?_
            · rw [heq]
              exact intToStr_ne_empty tip.1
            · rw [heq]
              exact intToStr_ne_empty tip.2
          · exact already_tipped_skips hrowf hne1 hne2
    · exact ihskip k hk r'

/-- A loop over rows that are all skipped leaves the document unchanged and
counts nothing as processed. -/
theorem run_games_of_all_skip (th now : ℤ) (rand : ℕ → Bool) :
    ∀ (idx : List ℕ) (doc : List RowData),
      (∀ i ∈ idx, ∀ r : Bool, process_single_game th doc i now r = (false, doc)) →
      run_games th now rand idx doc = (0, doc) := by
  intro idx
  induction idx with
  | nil =>
    intro doc _
    rfl
  | cons i rest ih =>
    intro doc h
    rw [run_games_cons, h i (List.mem_cons_self i rest) (rand i)]
    dsimp only
    rw [ih doc (fun k hk r => h k (List.mem_cons_of_mem i hk) r)]
    rfl

/-- C9. Running the pipeline twice over an unchanged document state with
the overwrite flag false is idempotent: whenever the first run completes
normally, the second run (with any random bits) writes nothing — it
returns the first run's document unchanged — and reports a processed count
of 0, because every row tipped in the first run now has both prediction
fields nonempty and is classified as already tipped. -/
theorem pipeline_idempotent_second_run (env : TipEnv) (cfg : Config)
    (doc doc₁ : List RowData) (now : ℤ) (rand rand' : ℕ → Bool) (p : ℕ)
    (hflag : cfg.OVERWRITE_TIPS = false)
    (h1 : tip_all_games env cfg doc now rand = .ok (p, doc₁)) :
    tip_all_games env cfg doc₁ now rand' = .ok (0, doc₁) := by
  unfold tip_all_games at h1 ⊢
  by_cases hp : env.pageLoads = false
  · rw [if_pos hp] at h1
    cases h1
  · rw [if_neg hp] at h1 ⊢
    by_cases hc : games_count env = 0
    · rw [if_pos hc]
    · rw [if_neg hc] at h1 ⊢
      dsimp only at h1 ⊢
      by_cases hs : env.submitFound = false
      · rw [if_pos hs] at h1
        cases h1
      · rw [if_neg hs] at h1 ⊢
        by_cases hclick : (env.clickOk || env.jsClickOk) = true
        · rw [if_pos hclick] at h1 ⊢
          have hrun : run_games cfg.TIME_UNTIL_GAME now rand
              (pyRange 1 (games_count env)) doc = (p, doc₁) := by
            injection h1
          have hskips := (run_games_evolves_and_skips cfg.TIME_UNTIL_GAME now rand
            (pyRange 1 (games_count env)) doc).2
          rw [hrun] at hskips
          have hrun2 : run_games cfg.TIME_UNTIL_GAME now rand'
              (pyRange 1 (games_count env)) doc₁ = (0, doc₁) :=
            run_games_of_all_skip cfg.TIME_UNTIL_GAME now rand'
              (pyRange 1 (games_count env)) doc₁
              (fun i hi r => hskips i hi r)
          rw [hrun2]
        · rw [if_neg hclick] at h1
          cases h1

/-- C9 (witness): a concrete first run that tips the single open row
(writing `2 - 0`), after which the second run reports 0 processed rows and
leaves the document untouched. -/
theorem pipeline_idempotent_second_run_witness :
    tip_all_games ⟨true, true, 2, 0, true, true, true⟩ ⟨false, 120⟩
      [⟨some "01.03.25 15:30", some "FC A", some "FC B", true, "2", "0",
        some "Quote: 2.0 / 3.0 / 4.0"⟩] 15116670 (fun _ => true) =
      .ok (0,
        [⟨some "01.03.25 15:30", some "FC A", some "FC B", true, "2", "0",
          some "Quote: 2.0 / 3.0 / 4.0"⟩]) :=
  pipeline_idempotent_second_run ⟨true, true, 2, 0, true, true, true⟩ ⟨false, 120⟩
    [⟨some "01.03.25 15:30", some "FC A", some "FC B", true, "", "",
      some "Quote: 2.0 / 3.0 / 4.0"⟩]
    [⟨some "01.03.25 15:30", some "FC A", some "FC B", true, "2", "0",
      some "Quote: 2.0 / 3.0 / 4.0"⟩]
    15116670 (fun _ => false) (fun _ => true) 1 rfl rfl

/-! ## `TimeExtractor` (src/src/kicktipp_bot/core/table_processors.py)

```python
@staticmethod
def extract_from_datarow(data_row, fallback_time=None):
    time_cell = SeleniumUtils.safe_find_element(data_row, By.XPATH, './td[1]')
    if time_cell:
        class_attr = SeleniumUtils.safe_get_attribute(time_cell, 'class', ...) or ''
        if 'hide' not in class_attr:
            time_text = SeleniumUtils.safe_get_text(time_cell, 'datarow time')
            if time_text and time_text.strip():
                return TimeExtractor._parse_time_string(time_text.strip())
        ...
    if fallback_time:
        return fallback_time
    else:
        return datetime.now(tz=ZoneInfo('Europe/Berlin'))

@staticmethod
def _parse_time_string(time_text):
    try:
        naive_dt = datetime.strptime(time_text, '%d.%m.%y %H:%M')
        return naive_dt.replace(tzinfo=ZoneInfo('Europe/Berlin'))
    except ValueError as e:
        logger.warning(f"Could not parse time '{time_text}': {e}")
        return datetime.now(tz=ZoneInfo('Europe/Berlin'))
```
-/

/-- A data row as `TimeExtractor` sees it: whether its `td[1]` exists, that
cell's `class` attribute, and its text (`''` for `None`). -/
structure DataRowView where
  timeCellPresent : Bool
  timeCellClass : String
  timeCellText : String
deriving DecidableEq, Repr

/-- `TimeExtractor._parse_time_string` (lines 103-111): parse the time
string; on failure log a warning and return `datetime.now()`. -/
def parse_time_string (time_text : String) (now : ℤ) : ℤ :=
  match parseTimeFormat time_text with
  | some t => t
  | none => now

/-- `TimeExtractor.extract_from_datarow` (lines 55-82): use the row's own
time cell only when it exists, is not class-hidden and has nonempty
stripped text; otherwise the fallback time if set, else `datetime.now()`. -/
def extract_from_datarow (row : DataRowView) (fallback_time : Option ℤ)
    (now : ℤ) : ℤ :=
  if row.timeCellPresent then
    if pyIn "hide" row.timeCellClass = false then
      if pyStrip row.timeCellText ≠ "" then
        parse_time_string (pyStrip row.timeCellText) now
      else fallback_time.getD now
    else fallback_time.getD now
  else fallback_time.getD now

/-- Modelled from the spec: the per-run kickoff-time carrier
`PipelineState.lastKnownKickoffTime` (spec §3, §4.2). What is missing from
the sources: the repository's current pipeline recomputes times per row
(`_find_game_time`) and contains no caller of `TimeExtractor` that carries
this state, so the carrying loop is modelled from the spec's words — walk
the data rows in order, resolving each row's effective kickoff time through
the source-embedded `extract_from_datarow` with the carried state as
fallback, the resolved time becoming the new state ("carries the most
recently observed kickoff time forward across rows", "the effective kickoff
time for this row is this fresh value"). -/
def track_kickoff_times (now : ℤ) :
    List DataRowView → Option ℤ → Option ℤ
  | [], st => st
  | row :: rest, st =>
    track_kickoff_times now rest (some (extract_from_datarow row st now))

/-- C6 (counterexample). The carried kickoff time **is** updated from a
time string that failed to parse, and thereby reset to an earlier time:
after a visible row sets the state to `01.03.25 15:30`, a second visible
row whose time text `"kickoff unknown"` does not parse overwrites the state
with `datetime.now()` (here 0, long before the stored kickoff), because
`_parse_time_string` substitutes the current time on parse failure. -/
theorem kickoff_state_failed_parse_counterexample :
    track_kickoff_times 0 [⟨true, "", "01.03.25 15:30"⟩] none = some 15116610 ∧
    track_kickoff_times 0
      [⟨true, "", "01.03.25 15:30"⟩, ⟨true, "", "kickoff unknown"⟩] none = some 0 ∧
    parseTimeFormat "kickoff unknown" = none ∧
    ((0 : ℤ) < 15116610) := by
  decide

/-- C6 (amended). One carrying step behaves as follows: a row whose time
cell is absent, class-hidden, or empty after stripping leaves the carried
state unchanged (hidden cells in particular never update it); a visible
nonempty time text always overwrites the state — with the parsed value when
parsing succeeds, and with the current wall-clock moment when parsing
fails, which can move the state to an earlier time. -/
theorem kickoff_state_update_characterization (row : DataRowView)
    (fb : Option ℤ) (now t : ℤ) :
    extract_from_datarow row fb now =
      (if row.timeCellPresent = true ∧ pyIn "hide" row.timeCellClass = false ∧
          pyStrip row.timeCellText ≠ ""
       then (parseTimeFormat (pyStrip row.timeCellText)).getD now
       else fb.getD now) ∧
    (pyIn "hide" row.timeCellClass = true →
      extract_from_datarow row (some t) now = t) := by
  constructor
  · unfold extract_from_datarow parse_time_string
    by_cases h1 : row.timeCellPresent = true
    · by_cases h2 : pyIn "hide" row.timeCellClass = false
      · by_cases h3 : pyStrip row.timeCellText ≠ ""
        · rw [if_pos h1, if_pos h2, if_pos h3, if_pos ⟨h1, h2, h3⟩]
          cases parseTimeFormat (pyStrip row.timeCellText) <;> rfl
        · rw [if_pos h1, if_pos h2, if_neg h3, if_neg (by tauto)]
      · rw [if_pos h1, if_neg h2, if_neg (by tauto)]
    · rw [if_neg (by simpa using h1), if_neg (by tauto)]
  · intro hh
    unfold extract_from_datarow
    by_cases h1 : row.timeCellPresent = true
    · rw [if_pos h1, if_neg (by simp [hh])]
      rfl
    · rw [if_neg (by simpa using h1)]
      rfl

/-- C6 (amended, witness): a hidden time cell leaves the carried state
`5` untouched even though "now" is `9`. -/
theorem kickoff_state_update_characterization_witness :
    extract_from_datarow ⟨true, "hide", "99"⟩ (some 5) 9 =
      (if (⟨true, "hide", "99"⟩ : DataRowView).timeCellPresent = true ∧
          pyIn "hide" (⟨true, "hide", "99"⟩ : DataRowView).timeCellClass = false ∧
          pyStrip (⟨true, "hide", "99"⟩ : DataRowView).timeCellText ≠ ""
       then (parseTimeFormat (pyStrip (⟨true, "hide", "99"⟩ : DataRowView).timeCellText)).getD 9
       else (some (5 : ℤ)).getD 9) ∧
    (pyIn "hide" (⟨true, "hide", "99"⟩ : DataRowView).timeCellClass = true →
      extract_from_datarow ⟨true, "hide", "99"⟩ (some 5) 9 = 5) :=
  kickoff_state_update_characterization ⟨true, "hide", "99"⟩ (some 5) 9 5

/-- Whenever `_extract_quotes` succeeds, it returns exactly 3 tokens. -/
theorem extract_quotes_some_length {c : Option String} {qs : List String}
    (h : extract_quotes c = some qs) : qs.length = 3 := by
  unfold extract_quotes at h
  cases c with
  | none => simp at h
  | some raw =>
    dsimp only at h
    split at h
    · simp at h
    · split at h
      · simp at h
      · split at h
        · rename_i hlen
          cases h
          exact hlen
        · simp at h

/-- Whenever the legacy `extract_quotes` of `GameDataExtractor` succeeds,
it returns exactly 3 tokens. -/
theorem legacy_quotes_some_length {s : String} {qs : List String}
    (h : legacy_quotes s = some qs) : qs.length = 3 := by
  unfold legacy_quotes at h
  split at h
  · simp at h
  · dsimp only at h
    split at h
    · simp at h
    · split at h
      · rename_i hlen
        cases h
        exact hlen
      · simp at h

/-- A quote list containing an unparsable token never validates. -/
theorem validate_quotes_error_of_bad_token {ts : List String} {q : String}
    (hmem : q ∈ ts) (hbad : parseFloat q = none) :
    ∃ e, validate_quotes ts = .error e := by
  unfold validate_quotes
  split
  · exact ⟨_, rfl⟩
  · cases hp : parse_all_quotes ts
    · exact ⟨_, rfl⟩
    · exfalso
      have h1 : (parse_all_quotes ts).isSome = true := by rw [hp] ; rfl
      have h2 := (parse_all_quotes_isSome ts).mp h1 q hmem
      rw [hbad] at h2
      simp at h2

/-- C2 (counterexample). A row whose effective kickoff time is one hour in
the past (kickoff `01.03.25 15:30`, "now" `01.03.25 16:30`), with open
prediction fields and valid quotes, is tipped: the pipeline reports it as
processed and writes `2 - 0` into its fields, although the match has
already started. -/
theorem past_kickoff_still_tipped_counterexample :
    find_game_time
      [⟨some "01.03.25 15:30", some "FC A", some "FC B", true, "", "",
        some "Quote: 2.0 / 3.0 / 4.0"⟩] 1 15116670 ≤ 15116670 ∧
    process_single_game 120
      [⟨some "01.03.25 15:30", some "FC A", some "FC B", true, "", "",
        some "Quote: 2.0 / 3.0 / 4.0"⟩] 1 15116670 false =
      (true,
        [⟨some "01.03.25 15:30", some "FC A", some "FC B", true, "2", "0",
          some "Quote: 2.0 / 3.0 / 4.0"⟩]) := by
  decide

/-- C2 (amended). The timing rule skips only matches lying *further than
the threshold in the future*: for every nonnegative threshold, a kickoff
time that is not strictly in the future passes `_should_tip_game`, so a
started or finished match whose prediction fields are still open is tipped
rather than skipped; and in general the timing check fails exactly when
`kickoff - now > threshold`. -/
theorem timing_check_passes_past_kickoff (threshold game_time now : ℤ)
    (h1 : game_time ≤ now) (h2 : 0 ≤ threshold) :
    should_tip_game threshold game_time now = true ∧
    (∀ t : ℤ, should_tip_game threshold t now = false ↔ threshold < t - now) := by
  constructor
  · unfold should_tip_game
    rw [if_neg (by omega)]
  · intro t
    unfold should_tip_game
    split
    · rename_i hc
      exact iff_of_true rfl hc
    · rename_i hc
      exact iff_of_false (by simp) hc

/-- C2 (witness): the amended timing rule at threshold 120 minutes, kickoff
one hour before "now". -/
theorem timing_check_passes_past_kickoff_witness :
    should_tip_game 120 15116610 15116670 = true ∧
    (∀ t : ℤ, should_tip_game 120 t 15116670 = false ↔ 120 < t - 15116670) :=
  timing_check_passes_past_kickoff 120 15116610 15116670 (by decide) (by decide)

/-- C3. When `_get_games_count` returns `N ≥ 1`, the loop of
`tip_all_games` visits exactly the 1-based row indices `1 … N-1`, in
strictly ascending order — `N-1` iterations, index `N` never visited, and
no iteration at all for `N = 1`. -/
theorem loop_visits_indices_one_to_count_minus_one (env : TipEnv)
    (h : 1 ≤ games_count env) :
    (pyRange 1 (games_count env)).length = games_count env - 1 ∧
    (∀ k, k ∈ pyRange 1 (games_count env) ↔ 1 ≤ k ∧ k ≤ games_count env - 1) ∧
    List.Chain' (· < ·) (pyRange 1 (games_count env)) ∧
    games_count env ∉ pyRange 1 (games_count env) ∧
    (games_count env = 1 → pyRange 1 (games_count env) = []) := by
  unfold pyRange
  refine ⟨List.length_range' .., ?_, ?_, ?_, ?_⟩
  · intro k
    rw [List.mem_range'_1]
    omega
  · exact (List.pairwise_lt_range' 1 (games_count env - 1)).chain'
  · rw [List.mem_range'_1]
    omega
  · intro h1
    rw [h1]
    rfl

/-- C3 (witness): the visited indices for a count of 5 games. -/
theorem loop_visits_indices_witness :
    (pyRange 1 (games_count ⟨true, true, 5, 0, true, true, true⟩)).length = 4 ∧
    (∀ k, k ∈ pyRange 1 (games_count ⟨true, true, 5, 0, true, true, true⟩) ↔
      1 ≤ k ∧ k ≤ 4) ∧
    List.Chain' (· < ·) (pyRange 1 (games_count ⟨true, true, 5, 0, true, true, true⟩)) ∧
    games_count ⟨true, true, 5, 0, true, true, true⟩
      ∉ pyRange 1 (games_count ⟨true, true, 5, 0, true, true, true⟩) ∧
    (games_count ⟨true, true, 5, 0, true, true, true⟩ = 1 →
      pyRange 1 (games_count ⟨true, true, 5, 0, true, true, true⟩) = []) :=
  loop_visits_indices_one_to_count_minus_one ⟨true, true, 5, 0, true, true, true⟩
    (by decide)

/-- C4. The `OVERWRITE_TIPS` flag is read from the environment but never
consulted: two runs differing only in the flag perform identical writes and
produce identical outcomes, and an already-tipped row (both fields
nonempty) is skipped unconditionally. -/
theorem overwrite_flag_never_consulted (cfg : Config) (b₁ b₂ : Bool)
    (env : TipEnv) (doc : List RowData) (now : ℤ) (rand : ℕ → Bool)
    (threshold : ℤ) (doc' : List RowData) (i : ℕ) (now' : ℤ) (r : Bool)
    (row : RowData) (hrow : getRow doc' i = some row)
    (hhome : row.homeVal ≠ "") (haway : row.awayVal ≠ "") :
    tip_all_games env { cfg with OVERWRITE_TIPS := b₁ } doc now rand =
      tip_all_games env { cfg with OVERWRITE_TIPS := b₂ } doc now rand ∧
    process_single_game threshold doc' i now' r = (false, doc') := by
  constructor
  · cases cfg
    rfl
  · exact already_tipped_skips hrow hhome haway

/-- C4 (witness): flag independence and the unconditional skip at a
concrete already-tipped one-row document. -/
theorem overwrite_flag_never_consulted_witness :
    tip_all_games ⟨true, true, 2, 0, true, true, true⟩ ⟨true, 120⟩
      [⟨some "01.03.25 15:30", some "FC A", some "FC B", true, "1", "1",
        some "Quote: 2.0 / 3.0 / 4.0"⟩] 15116000 (fun _ => false) =
    tip_all_games ⟨true, true, 2, 0, true, true, true⟩ ⟨false, 120⟩
      [⟨some "01.03.25 15:30", some "FC A", some "FC B", true, "1", "1",
        some "Quote: 2.0 / 3.0 / 4.0"⟩] 15116000 (fun _ => false) ∧
    process_single_game 120
      [⟨some "01.03.25 15:30", some "FC A", some "FC B", true, "1", "1",
        some "Quote: 2.0 / 3.0 / 4.0"⟩] 1 15116000 false =
      (false,
        [⟨some "01.03.25 15:30", some "FC A", some "FC B", true, "1", "1",
          some "Quote: 2.0 / 3.0 / 4.0"⟩]) :=
  overwrite_flag_never_consulted ⟨true, 120⟩ true false
    ⟨true, true, 2, 0, true, true, true⟩
    [⟨some "01.03.25 15:30", some "FC A", some "FC B", true, "1", "1",
      some "Quote: 2.0 / 3.0 / 4.0"⟩] 15116000 (fun _ => false)
    120
    [⟨some "01.03.25 15:30", some "FC A", some "FC B", true, "1", "1",
      some "Quote: 2.0 / 3.0 / 4.0"⟩] 1 15116000 false
    ⟨some "01.03.25 15:30", some "FC A", some "FC B", true, "1", "1",
      some "Quote: 2.0 / 3.0 / 4.0"⟩ (by decide) (by decide) (by decide)

/-- C5 (counterexample). The two claimed fatal situations are wrong in both
directions: a failed page load raises a fatal error although the submit
control works and the table is locatable, while an unlocatable table does
**not** raise — the run returns normally with nothing processed (and
nothing submitted). -/
theorem fatal_error_situations_counterexample :
    tip_all_games ⟨false, true, 5, 0, true, true, true⟩ ⟨false, 120⟩ [] 0
        (fun _ => false) = .error "Tipping page failed to load" ∧
    tip_all_games ⟨true, false, 5, 0, true, true, true⟩ ⟨false, 120⟩ [] 0
        (fun _ => false) = .ok (0, []) := by
  exact ⟨rfl, rfl⟩

/-- C5 (amended). `tip_all_games` raises a fatal error **exactly** when the
page fails to load, or when the games count is nonzero and the submission
step fails (submit control missing, or both the regular and the JavaScript
click fail). An unlocatable row table gives games count 0 and a normal
return without submission; every per-row failure is absorbed and the run
completes normally. -/
theorem tip_all_games_error_characterization (env : TipEnv) (cfg : Config)
    (doc : List RowData) (now : ℤ) (rand : ℕ → Bool) :
    (∃ e, tip_all_games env cfg doc now rand = .error e) ↔
      (env.pageLoads = false ∨
        (games_count env ≠ 0 ∧
          (env.submitFound = false ∨
            (env.clickOk = false ∧ env.jsClickOk = false)))) := by
  unfold tip_all_games
  by_cases h1 : env.pageLoads = false
  · simp [h1]
  · by_cases h2 : games_count env = 0
    · simp [h1, h2]
    · by_cases h3 : env.submitFound = false
      · simp [h1, h2, h3]
      · by_cases h4 : (env.clickOk || env.jsClickOk) = true
        · simp only [if_neg h1, if_neg h2, if_neg h3, if_pos h4]
          simp only [Bool.or_eq_true] at h4
          constructor
          · rintro ⟨e, he⟩
            cases he
          · rintro (hc | ⟨-, hc | ⟨hc1, hc2⟩⟩)
            · exact absurd hc h1
            · exact absurd hc h3
            · rcases h4 with h4 | h4
              · rw [h4] at hc1 ; cases hc1
              · rw [h4] at hc2 ; cases hc2
        · simp only [if_neg h1, if_neg h2, if_neg h3, if_neg h4]
          simp only [Bool.or_eq_true, not_or, Bool.not_eq_true] at h4
          constructor
          · intro _
            exact Or.inr ⟨h2, Or.inr h4⟩
          · intro _
            exact ⟨"Failed to submit tips form", rfl⟩

/-- C5 (amended, witness): a run whose submit control is missing raises. -/
theorem tip_all_games_error_characterization_witness :
    ∃ e, tip_all_games ⟨true, true, 3, 0, false, true, true⟩ ⟨false, 120⟩ [] 0
      (fun _ => false) = .error e :=
  (tip_all_games_error_characterization ⟨true, true, 3, 0, false, true, true⟩
    ⟨false, 120⟩ [] 0 (fun _ => false)).mpr (Or.inr ⟨by decide, Or.inl rfl⟩)

/-- C8. Legacy quote extraction accepts exactly the separators `" / "` and
`" | "` — `"1.5 / 3.2 / 4.8"` and `"1.5 | 3.2 | 4.8"` both extract to the
tokens `1.5`, `3.2`, `4.8`, which validate to the values
`[1.5, 3.2, 4.8]`; any successful extraction yields exactly 3 tokens (so
any other token count fails), and a non-numeric token fails float
validation, which fails the row (shown on a concrete row whose quote blob
contains `abc`). Both `GameTipper._extract_quotes` and the legacy branch of
`GameDataExtractor.extract_quotes` are covered. -/
theorem legacy_quote_extraction_correct (s s' : String)
    (qs qs' ts : List String) (q : String)
    (hex : extract_quotes (some s) = some qs)
    (hleg : legacy_quotes s' = some qs')
    (hmem : q ∈ ts) (hbad : parseFloat q = none) :
    extract_quotes (some "1.5 / 3.2 / 4.8") = some ["1.5", "3.2", "4.8"] ∧
    extract_quotes (some "1.5 | 3.2 | 4.8") = some ["1.5", "3.2", "4.8"] ∧
    legacy_quotes "1.5 / 3.2 / 4.8" = some ["1.5", "3.2", "4.8"] ∧
    legacy_quotes "1.5 | 3.2 | 4.8" = some ["1.5", "3.2", "4.8"] ∧
    validate_quotes ["1.5", "3.2", "4.8"] = .ok [⟨15, 10⟩, ⟨32, 10⟩, ⟨48, 10⟩] ∧
    qs.length = 3 ∧ qs'.length = 3 ∧
    (∃ e, validate_quotes ts = .error e) ∧
    process_single_game 120
      [⟨some "01.03.25 15:30", some "FC A", some "FC B", true, "", "",
        some "Quote: 1.5 / abc / 4.8"⟩] 1 15116670 false =
      (false,
        [⟨some "01.03.25 15:30", some "FC A", some "FC B", true, "", "",
          some "Quote: 1.5 / abc / 4.8"⟩]) := by
  refine ⟨by decide, by decide, by decide, by decide, rfl,
    extract_quotes_some_length hex, legacy_quotes_some_length hleg,
    validate_quotes_error_of_bad_token hmem hbad, by decide⟩

/-- C8 (witness): instantiated at the pipe-separated blob, the legacy
slash-separated blob, and the unparsable token list `["1.5", "abc", "4.8"]`. -/
theorem legacy_quote_extraction_correct_witness :
    extract_quotes (some "1.5 / 3.2 / 4.8") = some ["1.5", "3.2", "4.8"] ∧
    extract_quotes (some "1.5 | 3.2 | 4.8") = some ["1.5", "3.2", "4.8"] ∧
    legacy_quotes "1.5 / 3.2 / 4.8" = some ["1.5", "3.2", "4.8"] ∧
    legacy_quotes "1.5 | 3.2 | 4.8" = some ["1.5", "3.2", "4.8"] ∧
    validate_quotes ["1.5", "3.2", "4.8"] = .ok [⟨15, 10⟩, ⟨32, 10⟩, ⟨48, 10⟩] ∧
    (["1.5", "3.2", "4.8"] : List String).length = 3 ∧
    (["1.5", "3.2", "4.8"] : List String).length = 3 ∧
    (∃ e, validate_quotes ["1.5", "abc", "4.8"] = .error e) ∧
    process_single_game 120
      [⟨some "01.03.25 15:30", some "FC A", some "FC B", true, "", "",
        some "Quote: 1.5 / abc / 4.8"⟩] 1 15116670 false =
      (false,
        [⟨some "01.03.25 15:30", some "FC A", some "FC B", true, "", "",
          some "Quote: 1.5 / abc / 4.8"⟩]) :=
  legacy_quote_extraction_correct "Quote: 1.5 / 3.2 / 4.8" "Quote: 1.5 | 3.2 | 4.8"
    ["1.5", "3.2", "4.8"] ["1.5", "3.2", "4.8"] ["1.5", "abc", "4.8"] "abc"
    (by decide) (by decide) (by decide) (by decide)

end KicktippBot
